import Mathlib

/-!
# beat-exporter: the filebeat collector (`collector/filebeat.go`)

A shallow embedding of the filebeat collector: the harvester error scanner
(`isHarvesterError`, `getHarvesterErrors`, the package variables `lastError`
and `errorCount`) and the metric table with its two operations (`Describe`,
`Collect`).

Conventions of the embedding.

* A Go string is a list of characters (`Str`).  The program only splits on
  the one-character separators newline and tab, tests emptiness and matches
  ASCII literals, all of which agree on bytes and on characters.
* `float64` is modelled by the rationals (`Float64`); snapshot numbers are
  only copied.  The counter `errorCount` only ever holds the whole numbers
  reached from zero in steps of one, so it is stored as a natural number and
  `errorCount + 1` is `float64AddOne`: exact below `2^53`, and without effect
  at `2^53`, where the float64 sum rounds back to `2^53`.
* Code that can panic returns `Option`; `none` is the panic.
* Functions of the Go and Prometheus libraries (`strings.Split`, the pattern
  matcher, `BuildFQName`, `NewDesc` with its checks of metric and label names,
  `MustNewConstMetric`) follow the behaviour of the libraries.
* The outcome of running `docker logs` is an input of the scanner
  (`Retrieval`): the program has no influence on it.
* The globals `lastError` and `errorCount` are the explicit `ScannerState`.
-/

namespace Collector

/-- A Go string. -/
abbrev Str := List Char

/-- A Go `float64`, as far as this program computes with it. -/
abbrev Float64 := ℚ

/-! ## The snapshot -/

/-- The group `events` of the filebeat statistics. -/
structure FilebeatEvents where
  Active : Float64
  Added : Float64
  Done : Float64

/-- The group `harvester` of the filebeat statistics. -/
structure FilebeatHarvester where
  Closed : Float64
  OpenFiles : Float64
  Running : Float64
  Skipped : Float64
  Started : Float64

/-- The group `input.log.files` of the filebeat statistics. -/
structure FilebeatFiles where
  Renamed : Float64
  Truncated : Float64

/-- The group `input.log` of the filebeat statistics. -/
structure FilebeatLog where
  Files : FilebeatFiles

/-- The group `input` of the filebeat statistics. -/
structure FilebeatInput where
  Log : FilebeatLog

/-- Go `Filebeat`, the filebeat json structure. -/
structure Filebeat where
  Events : FilebeatEvents
  Harvester : FilebeatHarvester
  Input : FilebeatInput

/-- Modelled from the spec: the type `Stats`, which is declared outside
`filebeat.go`; the collector reads its field `Filebeat`, the snapshot. -/
structure Stats where
  Filebeat : Filebeat

/-- Modelled from the spec: the type `BeatInfo`, which is declared outside
`filebeat.go`; the collector reads its field `Beat`, the component name. -/
structure BeatInfo where
  Beat : Str

/-! ## Library functions used by the scanner -/

/-- Pieces of `s` around the separator `sep`: the first piece, and the pieces after it. -/
def splitParts (sep : Char) : Str → Str × List Str
  | [] => ([], [])
  | c :: cs =>
    if c = sep then ([], (splitParts sep cs).1 :: (splitParts sep cs).2)
    else (c :: (splitParts sep cs).1, (splitParts sep cs).2)

/-- Go `strings.Split(s, sep)` for a one-character separator: the substrings
between the occurrences of `sep`, one more than there are occurrences. -/
def Split (s : Str) (sep : Char) : List Str :=
  (splitParts sep s).1 :: (splitParts sep s).2

/-- Go `xs[0]`: panics (`none`) on an empty slice. -/
def index0 {α : Type} : List α → Option α
  | [] => none
  | x :: _ => some x

/-- Go `xs[1:]`: panics (`none`) on an empty slice. -/
def sliceFrom1 {α : Type} : List α → Option (List α)
  | [] => none
  | _ :: xs => some xs

/-- The fragment of Go regular expressions that the error signature uses. -/
inductive Regexp where
  /-- A literal text. -/
  | lit (s : Str)
  /-- The pattern `.*?`: any characters other than newline, as few as possible. -/
  | lazyDotStar
  /-- A capture group `( )`. -/
  | group (a : Regexp)
  /-- Concatenation. -/
  | cat (a b : Regexp)

/-- What is left of `s` after the literal `p`, when `s` starts with `p`. -/
def dropLit : Str → Str → Option Str
  | [], s => some s
  | _ :: _, [] => none
  | p :: ps, c :: cs => if p = c then dropLit ps cs else none

/-- What can be left of `s` after `.*?`, shortest match first. -/
def dotRests : Str → List Str
  | [] => [[]]
  | c :: cs => (c :: cs) :: (if c = '\n' then [] else dotRests cs)

/-- Every way to match the pattern at the start of `s`, given as what is left
of `s` after the match, in the order of preference of the pattern. -/
def Regexp.rests : Regexp → Str → List Str
  | .lit p, s => (dropLit p s).toList
  | .lazyDotStar, s => dotRests s
  | .group a, s => a.rests s
  | .cat a b, s => (a.rests s).flatMap b.rests

/-- Go `(*Regexp).MatchString`: whether the pattern matches somewhere in `s`. -/
def Regexp.MatchString (r : Regexp) (s : Str) : Bool :=
  s.tails.any (fun t => !(r.rests t).isEmpty)

/-- The pattern `(ERROR).*?(harvester).*?(Read line error)`. -/
def harvesterRegexp : Regexp :=
  .cat (.group (.lit "ERROR".toList))
    (.cat .lazyDotStar
      (.cat (.group (.lit "harvester".toList))
        (.cat .lazyDotStar (.group (.lit "Read line error".toList)))))

/-! ## The harvester error scanner -/

/-- The package variables `lastError` (the watermark) and `errorCount`. -/
structure ScannerState where
  lastError : Str
  errorCount : Nat
deriving DecidableEq, Repr

/-- The initial values `lastError = ""` and `errorCount = float64(0)`. -/
def ScannerState.init : ScannerState := ⟨[], 0⟩

/-- The float64 sum `c + 1` for a whole number `c` of at most `2^53`. -/
def float64AddOne (c : Nat) : Nat :=
  if c < 2 ^ 53 then c + 1 else c

/-- The arguments of the `docker` command that `getHarvesterErrors` runs: the
last one, the boundary of `--since`, is `lastError`. -/
def dockerArgs (lastError : Str) : List Str :=
  ["logs".toList, "filebeat".toList, "--tail".toList, "100".toList, "--since".toList, lastError]

/-- The result of `cmd.Run()` on `docker logs filebeat --tail 100 --since lastError`. -/
inductive Retrieval where
  /-- The command failed (`err != nil`). -/
  | failure
  /-- The command succeeded and wrote `stderr` to its standard error. -/
  | success (stderr : Str)
deriving DecidableEq, Repr

/-- Go `isHarvesterError`: the text before the first tab of a line that the
pattern matches, the empty string for any other line. -/
def isHarvesterError (r : Regexp) (l : Str) : Option Str :=
  if r.MatchString l then index0 (Split l '\t') else some []

/-- The loop `for _, v := range errStr` of `getHarvesterErrors`. -/
def scanLines (r : Regexp) : ScannerState → List Str → Option ScannerState
  | s, [] => some s
  | s, v :: vs =>
    match isHarvesterError r v with
    | none => none
    | some checkResult =>
      if checkResult.length > 0 then
        scanLines r ⟨checkResult, float64AddOne s.errorCount⟩ vs
      else
        scanLines r s vs

/-- The lines that the loop goes over: all lines of the standard error, less
the first one when `lastError` is not empty. -/
def scannedLines (lastError : Str) (stderr : Str) : Option (List Str) :=
  if lastError.length > 0 then sliceFrom1 (Split stderr '\n') else some (Split stderr '\n')

/-- Go `getHarvesterErrors`: one poll of the scanner.  The argument `stats` is
not used; `run` is the outcome of the `docker logs` command; the result is the
returned count and the new values of the package variables. -/
def getHarvesterErrors (_stats : Stats) (run : Retrieval) (s : ScannerState) :
    Option (Float64 × ScannerState) :=
  match run with
  | .failure => some ((s.errorCount : Float64), s)
  | .success e =>
    match scannedLines s.lastError e with
    | none => none
    | some errStr =>
      match scanLines harvesterRegexp s errStr with
      | none => none
      | some s1 => some ((s1.errorCount : Float64), s1)

/-! ## The metric table and the collector -/

/-- Prometheus `ValueType`. -/
inductive ValueType where
  | CounterValue
  | GaugeValue
  | UntypedValue
deriving DecidableEq, Repr

/-- Prometheus `Desc`, as built by `NewDesc`: the fully qualified name, the
help text, the names of the variable labels, the constant labels, and whether
`NewDesc` found the descriptor invalid (`err != nil`).  A descriptor with an
error has no constant labels. -/
structure Desc where
  fqName : Str
  help : Str
  variableLabels : List Str
  constLabels : List (Str × Str)
  err : Bool
deriving DecidableEq, Repr

/-- A first character of a metric name: an ASCII letter, underscore or colon. -/
def metricNameStart (c : Char) : Bool :=
  c.isAlpha || c == '_' || c == ':'

/-- A later character of a metric name: an ASCII letter or digit, underscore or colon. -/
def metricNameChar (c : Char) : Bool :=
  c.isAlphanum || c == '_' || c == ':'

/-- Prometheus `model.IsValidMetricName`: the name is not empty and matches
`[a-zA-Z_:][a-zA-Z0-9_:]*`. -/
def IsValidMetricName : Str → Bool
  | [] => false
  | c :: cs => metricNameStart c && cs.all metricNameChar

/-- A first character of a label name: an ASCII letter or underscore. -/
def labelNameStart (c : Char) : Bool :=
  c.isAlpha || c == '_'

/-- A later character of a label name: an ASCII letter or digit, or underscore. -/
def labelNameChar (c : Char) : Bool :=
  c.isAlphanum || c == '_'

/-- Prometheus `checkLabelName`: the name is not empty, matches
`[a-zA-Z_][a-zA-Z0-9_]*` and does not start with the reserved `__`. -/
def checkLabelName : Str → Bool
  | [] => false
  | c :: cs =>
    labelNameStart c && cs.all labelNameChar && !("__".toList.isPrefixOf (c :: cs))

/-- Prometheus `BuildFQName`: the non-empty parts joined by an underscore,
and the empty string when `name` is empty. -/
def BuildFQName (ns subsystem name : Str) : Str :=
  if name = [] then []
  else if ns ≠ [] ∧ subsystem ≠ [] then ns ++ '_' :: (subsystem ++ '_' :: name)
  else if ns ≠ [] then ns ++ '_' :: name
  else if subsystem ≠ [] then subsystem ++ '_' :: name
  else name

/-- Prometheus `NewDesc`.  The constant labels, a map in Go, are the list of
its entries in the order of their names.  The descriptor carries an error, and
no constant labels, when the name is not a valid metric name, when a label
name is not valid, or when a label name occurs twice.  The label values are
valid as well: every `Str` is well-formed text. -/
def NewDesc (fqName help : Str) (variableLabels : List Str)
    (constLabels : List (Str × Str)) : Desc :=
  if !IsValidMetricName fqName then
    ⟨fqName, help, variableLabels, [], true⟩
  else if !constLabels.all (fun kv => checkLabelName kv.1) then
    ⟨fqName, help, variableLabels, [], true⟩
  else if !variableLabels.all checkLabelName then
    ⟨fqName, help, variableLabels, [], true⟩
  else if !decide ((constLabels.map (fun kv => kv.1) ++ variableLabels).Nodup) then
    ⟨fqName, help, variableLabels, [], true⟩
  else
    ⟨fqName, help, variableLabels, constLabels, false⟩

/-- A sample, as built by `MustNewConstMetric`. -/
structure Metric where
  desc : Desc
  valType : ValueType
  value : Float64
deriving DecidableEq

/-- Prometheus `MustNewConstMetric` without label values: the sample of the
descriptor with the given value.  It panics on a descriptor that carries an
error, and on a descriptor with variable labels, for which label values are
missing. -/
def MustNewConstMetric (desc : Desc) (valType : ValueType) (value : Float64) :
    Option Metric :=
  if desc.err then none
  else if desc.variableLabels.length ≠ 0 then none
  else some ⟨desc, valType, value⟩

/-- An evaluator `func(stats *Stats) float64`: besides the snapshot it may run
the `docker logs` command, whose outcome is `run`, and read and write the
package variables. -/
abbrev Eval := Stats → Retrieval → ScannerState → Option (Float64 × ScannerState)

/-- An evaluator that reads a number off the snapshot. -/
def statEval (f : Stats → Float64) : Eval :=
  fun stats _ s => some (f stats, s)

/-- Modelled from the spec: the element type of `exportedMetrics`, which is
declared outside `filebeat.go`: a metric declaration is a descriptor, an
evaluator and a value type. -/
structure exportedMetric where
  desc : Desc
  eval : Eval
  valType : ValueType

/-- Modelled from the spec: `exportedMetrics`, the list of metric declarations. -/
abbrev exportedMetrics := List exportedMetric

/-- Go `filebeatCollector`. -/
structure filebeatCollector where
  beatInfo : BeatInfo
  stats : Stats
  metrics : exportedMetrics

/-- Go `NewFilebeatCollector`. -/
def NewFilebeatCollector (beatInfo : BeatInfo) (stats : Stats) : filebeatCollector where
  beatInfo := beatInfo
  stats := stats
  metrics := [
    { desc := NewDesc (BuildFQName beatInfo.Beat "filebeat".toList "events".toList)
        "filebeat.events".toList [] [("event".toList, "active".toList)]
      eval := statEval (fun stats => stats.Filebeat.Events.Active)
      valType := .UntypedValue },
    { desc := NewDesc (BuildFQName beatInfo.Beat "filebeat".toList "events".toList)
        "filebeat.events".toList [] [("event".toList, "added".toList)]
      eval := statEval (fun stats => stats.Filebeat.Events.Added)
      valType := .UntypedValue },
    { desc := NewDesc (BuildFQName beatInfo.Beat "filebeat".toList "events".toList)
        "filebeat.events".toList [] [("event".toList, "done".toList)]
      eval := statEval (fun stats => stats.Filebeat.Events.Done)
      valType := .UntypedValue },
    { desc := NewDesc (BuildFQName beatInfo.Beat "filebeat".toList "harvester".toList)
        "filebeat.harvester".toList [] [("harvester".toList, "closed".toList)]
      eval := statEval (fun stats => stats.Filebeat.Harvester.Closed)
      valType := .UntypedValue },
    { desc := NewDesc (BuildFQName beatInfo.Beat "filebeat".toList "harvester".toList)
        "filebeat.harvester".toList [] [("harvester".toList, "open_files".toList)]
      eval := statEval (fun stats => stats.Filebeat.Harvester.OpenFiles)
      valType := .UntypedValue },
    { desc := NewDesc (BuildFQName beatInfo.Beat "filebeat".toList "harvester".toList)
        "filebeat.harvester".toList [] [("harvester".toList, "running".toList)]
      eval := statEval (fun stats => stats.Filebeat.Harvester.Running)
      valType := .UntypedValue },
    { desc := NewDesc (BuildFQName beatInfo.Beat "filebeat".toList "harvester".toList)
        "filebeat.harvester".toList [] [("harvester".toList, "skipped".toList)]
      eval := statEval (fun stats => stats.Filebeat.Harvester.Skipped)
      valType := .UntypedValue },
    { desc := NewDesc (BuildFQName beatInfo.Beat "filebeat".toList "harvester".toList)
        "filebeat.harvester".toList [] [("harvester".toList, "started".toList)]
      eval := statEval (fun stats => stats.Filebeat.Harvester.Started)
      valType := .UntypedValue },
    { desc := NewDesc (BuildFQName beatInfo.Beat "filebeat".toList "harvester".toList)
        "filebeat.harvester".toList [] [("harvester".toList, "errors".toList)]
      eval := getHarvesterErrors
      valType := .UntypedValue },
    { desc := NewDesc (BuildFQName beatInfo.Beat "filebeat".toList "input_log".toList)
        "filebeat.input_log".toList [] [("files".toList, "renamed".toList)]
      eval := statEval (fun stats => stats.Filebeat.Input.Log.Files.Renamed)
      valType := .UntypedValue },
    { desc := NewDesc (BuildFQName beatInfo.Beat "filebeat".toList "input_log".toList)
        "filebeat.input_log".toList [] [("files".toList, "truncated".toList)]
      eval := statEval (fun stats => stats.Filebeat.Input.Log.Files.Truncated)
      valType := .UntypedValue }
  ]

/-- The loop of `Describe`: the descriptors sent to the channel, in order. -/
def describeLoop : exportedMetrics → List Desc
  | [] => []
  | metric :: rest => metric.desc :: describeLoop rest

/-- Go `(*filebeatCollector).Describe`: the descriptors sent to the channel,
and the package variables after the call. -/
def filebeatCollector.Describe (c : filebeatCollector) (s : ScannerState) :
    List Desc × ScannerState :=
  (describeLoop c.metrics, s)

/-- The loop of `Collect`: the samples sent to the channel, in order, and the
package variables after the loop.  Each round calls the evaluator, then
`MustNewConstMetric`, and the loop ends in a panic when either panics. -/
def collectLoop (stats : Stats) (run : Retrieval) :
    exportedMetrics → ScannerState → Option (List Metric × ScannerState)
  | [], s => some ([], s)
  | i :: rest, s =>
    match i.eval stats run s with
    | none => none
    | some (v, s1) =>
      match MustNewConstMetric i.desc i.valType v with
      | none => none
      | some m =>
        match collectLoop stats run rest s1 with
        | none => none
        | some (ms, s2) => some (m :: ms, s2)

/-- Go `(*filebeatCollector).Collect`. -/
def filebeatCollector.Collect (c : filebeatCollector) (run : Retrieval) (s : ScannerState) :
    Option (List Metric × ScannerState) :=
  collectLoop c.stats run c.metrics s

/-! ## Notions of the specification -/

/-- The error signature: a line qualifies when the pattern matches it. -/
def qualifies (l : Str) : Bool :=
  harvesterRegexp.MatchString l

/-- The leading token of a line: the portion before the first tab character. -/
def leadingToken (l : Str) : Str :=
  l.takeWhile (fun c => c != '\t')

/-- The scanned lines of a successful retrieval: all lines when the watermark
is empty, the lines after the first when it is not. -/
def linesScanned (lastError stderr : Str) : List Str :=
  if lastError = [] then Split stderr '\n' else (Split stderr '\n').tail

/-- One pass of the loop body over a line, as a total function on states. -/
def scanStep (r : Regexp) (s : ScannerState) (v : Str) : ScannerState :=
  if r.MatchString v = true ∧ leadingToken v ≠ [] then
    ⟨leadingToken v, float64AddOne s.errorCount⟩
  else s

/-- A sequence of invocations of `getHarvesterErrors`, one per retrieval
outcome: the state before the first invocation followed by the state after
each invocation. -/
def pollTrace (stats : Stats) : ScannerState → List Retrieval → Option (List ScannerState)
  | s, [] => some [s]
  | s, run :: runs =>
    match getHarvesterErrors stats run s with
    | none => none
    | some (_, s1) =>
      match pollTrace stats s1 runs with
      | none => none
      | some tr => some (s :: tr)

/-- The snapshot of the first example scenario. -/
def snapshot1 : Stats :=
  ⟨⟨⟨3, 10, 7⟩, ⟨1, 2, 1, 0, 2⟩, ⟨⟨⟨0, 1⟩⟩⟩⟩⟩

/-- A log line of filebeat that reports a harvester read error at `00:00:01`. -/
def errorLine1 : Str :=
  "2024-01-01T00:00:01\tERROR\tlog/harvester.go:281\tRead line error: EOF".toList

/-- A log line of filebeat that reports a harvester read error at `00:00:05`. -/
def errorLine5 : Str :=
  "2024-01-01T00:00:05\tERROR\tlog/harvester.go:281\tRead line error: EOF".toList

/-- A log line of filebeat that reports no error. -/
def infoLine : Str :=
  "2024-01-01T00:00:03\tINFO\tlog/harvester.go:255\tHarvester started".toList

/-- A line that the pattern matches and that starts with a tab. -/
def tabLine : Str :=
  "\tERROR harvester Read line error".toList

/-- The lines retrieved by a sequence of invocations: the lines of the
standard error of every successful retrieval. -/
def retrievedLines : List Retrieval → List Str
  | [] => []
  | .failure :: runs => retrievedLines runs
  | .success e :: runs => Split e '\n' ++ retrievedLines runs

/-- The line `errorLine1` with its markers in lower case. -/
def lowerCaseLine : Str :=
  "2024-01-01T00:00:01\terror\tlog/harvester.go:281\tread line error: EOF".toList

/-- A line with the three markers in the opposite order. -/
def reversedLine : Str :=
  "Read line error in harvester: ERROR".toList

/-- Three polls: an error line and an info line; a failed retrieval; the
error line again followed by a new error line. -/
def threePolls : List Retrieval :=
  [.success (errorLine1 ++ '\n' :: infoLine), .failure,
    .success (errorLine1 ++ '\n' :: errorLine5)]

/-- The metric identity of the exposition table: the valid descriptor of the
family `component_filebeat_name`, with the help text `filebeat.name`, no
variable labels and the one label `label` with the value `value`. -/
def identity (component name label value : Str) : Desc :=
  ⟨BuildFQName component "filebeat".toList name, "filebeat.".toList ++ name, [],
    [(label, value)], false⟩

/-- A component name with which the family names are valid metric names: the
empty name, or ASCII letters, digits, underscores and colons that do not start
with a digit. -/
def validComponent (c : Str) : Bool :=
  c.isEmpty || IsValidMetricName c

/-- A component whose name is not a valid part of a metric name. -/
def dashedBeat : BeatInfo :=
  ⟨"my-beat".toList⟩

/-- A component whose name is a valid part of a metric name. -/
def plainBeat : BeatInfo :=
  ⟨"beat".toList⟩

/-- An untyped sample of a metric identity. -/
def untypedSample (d : Desc) (v : Float64) : Metric :=
  ⟨d, .UntypedValue, v⟩

/-- The eleven samples of a scrape, in the order of the exposition table: each
stat-derived sample reads its field of the snapshot, and the harvester errors
sample carries `errors`. -/
def scrapeSamples (component : Str) (stats : Stats) (errors : Float64) : List Metric :=
  [ untypedSample (identity component "events".toList "event".toList "active".toList)
      stats.Filebeat.Events.Active,
    untypedSample (identity component "events".toList "event".toList "added".toList)
      stats.Filebeat.Events.Added,
    untypedSample (identity component "events".toList "event".toList "done".toList)
      stats.Filebeat.Events.Done,
    untypedSample (identity component "harvester".toList "harvester".toList "closed".toList)
      stats.Filebeat.Harvester.Closed,
    untypedSample (identity component "harvester".toList "harvester".toList "open_files".toList)
      stats.Filebeat.Harvester.OpenFiles,
    untypedSample (identity component "harvester".toList "harvester".toList "running".toList)
      stats.Filebeat.Harvester.Running,
    untypedSample (identity component "harvester".toList "harvester".toList "skipped".toList)
      stats.Filebeat.Harvester.Skipped,
    untypedSample (identity component "harvester".toList "harvester".toList "started".toList)
      stats.Filebeat.Harvester.Started,
    untypedSample (identity component "harvester".toList "harvester".toList "errors".toList)
      errors,
    untypedSample (identity component "input_log".toList "files".toList "renamed".toList)
      stats.Filebeat.Input.Log.Files.Renamed,
    untypedSample (identity component "input_log".toList "files".toList "truncated".toList)
      stats.Filebeat.Input.Log.Files.Truncated ]

/-! ## Lemmas on the library functions -/

theorem splitParts_fst (sep : Char) (s : Str) :
    (splitParts sep s).1 = s.takeWhile (fun c => c != sep) := by
  induction s with
  | nil => rfl
  | cons c cs ih =>
    by_cases h : c = sep
    · simp [splitParts, h]
    · simp [splitParts, h, ih]

theorem splitParts_append (sep : Char) (d rest : Str) (hd : sep ∉ d) :
    splitParts sep (d ++ sep :: rest) = (d, Split rest sep) := by
  induction d with
  | nil => simp [splitParts, Split]
  | cons c cs ih =>
    have hc : c ≠ sep := fun h => hd (by simp [h])
    have hcs : sep ∉ cs := fun h => hd (by simp [h])
    simp [splitParts, hc, ih hcs]

theorem splitParts_of_not_mem (sep : Char) (d : Str) (hd : sep ∉ d) :
    splitParts sep d = (d, []) := by
  induction d with
  | nil => rfl
  | cons c cs ih =>
    have hc : c ≠ sep := fun h => hd (by simp [h])
    have hcs : sep ∉ cs := fun h => hd (by simp [h])
    simp [splitParts, hc, ih hcs]

theorem Split_append (sep : Char) (d rest : Str) (hd : sep ∉ d) :
    Split (d ++ sep :: rest) sep = d :: Split rest sep := by
  simp [Split, splitParts_append sep d rest hd]

theorem Split_of_not_mem (sep : Char) (d : Str) (hd : sep ∉ d) :
    Split d sep = [d] := by
  simp [Split, splitParts_of_not_mem sep d hd]

theorem index0_Split (l : Str) (sep : Char) :
    index0 (Split l sep) = some (l.takeWhile (fun c => c != sep)) := by
  simp [Split, index0, splitParts_fst]

theorem scannedLines_eq (w e : Str) :
    scannedLines w e = some (linesScanned w e) := by
  unfold scannedLines linesScanned
  by_cases h : w = []
  · simp [h]
  · have : 0 < w.length := List.length_pos.mpr h
    simp [h, this, Split, sliceFrom1]

/-! ## Lemmas on the scanner -/

theorem isHarvesterError_eq (r : Regexp) (l : Str) :
    isHarvesterError r l = some (if r.MatchString l = true then leadingToken l else []) := by
  unfold isHarvesterError leadingToken
  by_cases h : r.MatchString l = true
  · simp [h, index0_Split]
  · simp [h]

theorem scanLines_eq (r : Regexp) (s : ScannerState) (vs : List Str) :
    scanLines r s vs = some (vs.foldl (scanStep r) s) := by
  induction vs generalizing s with
  | nil => rfl
  | cons v vs ih =>
    simp only [scanLines, isHarvesterError_eq, List.foldl_cons, scanStep]
    by_cases h : r.MatchString v = true
    · by_cases ht : leadingToken v = []
      · simp [h, ht, ih]
      · have : 0 < (leadingToken v).length := List.length_pos.mpr ht
        simp [h, ht, this, ih]
    · simp [h, ih]

theorem getHarvesterErrors_success (stats : Stats) (e : Str) (s : ScannerState) :
    getHarvesterErrors stats (.success e) s =
      some ((((linesScanned s.lastError e).foldl (scanStep harvesterRegexp) s).errorCount :
        Float64), (linesScanned s.lastError e).foldl (scanStep harvesterRegexp) s) := by
  simp [getHarvesterErrors, scannedLines_eq, scanLines_eq]

theorem le_float64AddOne (c : Nat) : c ≤ float64AddOne c := by
  unfold float64AddOne
  split_ifs <;> omega

theorem errorCount_le_scanStep (r : Regexp) (s : ScannerState) (v : Str) :
    s.errorCount ≤ (scanStep r s v).errorCount := by
  unfold scanStep
  split_ifs
  · exact le_float64AddOne _
  · exact le_refl _

theorem errorCount_le_foldl (r : Regexp) (vs : List Str) (s : ScannerState) :
    s.errorCount ≤ (vs.foldl (scanStep r) s).errorCount := by
  induction vs generalizing s with
  | nil => exact le_refl _
  | cons v vs ih => exact le_trans (errorCount_le_scanStep r s v) (ih _)

theorem errorCount_le_poll (stats : Stats) (run : Retrieval) (s : ScannerState) :
    ∃ s1, getHarvesterErrors stats run s = some ((s1.errorCount : Float64), s1) ∧
      s.errorCount ≤ s1.errorCount := by
  cases run with
  | failure => exact ⟨s, rfl, le_refl _⟩
  | success e =>
    exact ⟨_, getHarvesterErrors_success stats e s, errorCount_le_foldl _ _ _⟩

theorem pollTrace_spec (stats : Stats) (runs : List Retrieval) (s : ScannerState) :
    ∃ tr, pollTrace stats s runs = some (s :: tr) ∧ tr.length = runs.length ∧
      List.Chain (fun a b => a.errorCount ≤ b.errorCount) s tr := by
  induction runs generalizing s with
  | nil => exact ⟨[], rfl, rfl, List.Chain.nil⟩
  | cons run runs ih =>
    obtain ⟨s1, h1, hle⟩ := errorCount_le_poll stats run s
    obtain ⟨tr, h2, hlen, hch⟩ := ih s1
    refine ⟨s1 :: tr, ?_, by simp [hlen], List.Chain.cons hle hch⟩
    simp [pollTrace, h1, h2]

theorem errorCount_foldl_of_tokens (vs : List Str) (s : ScannerState)
    (htok : ∀ l ∈ vs, qualifies l = true → leadingToken l ≠ [])
    (hc : s.errorCount + (vs.filter qualifies).length ≤ 2 ^ 53) :
    (vs.foldl (scanStep harvesterRegexp) s).errorCount =
      s.errorCount + (vs.filter qualifies).length := by
  induction vs generalizing s with
  | nil => simp
  | cons v vs ih =>
    have htok2 : ∀ l ∈ vs, qualifies l = true → leadingToken l ≠ [] :=
      fun l hl => htok l (List.mem_cons_of_mem _ hl)
    by_cases hq : qualifies v = true
    · have hv : leadingToken v ≠ [] := htok v (List.mem_cons_self _ _) hq
      have hm : harvesterRegexp.MatchString v = true := hq
      simp only [List.filter_cons, hq, if_true, List.length_cons] at hc ⊢
      have hlt : s.errorCount < 2 ^ 53 := by omega
      have hstep : scanStep harvesterRegexp s v = ⟨leadingToken v, s.errorCount + 1⟩ := by
        unfold scanStep float64AddOne
        rw [if_pos ⟨hm, hv⟩, if_pos hlt]
      rw [List.foldl_cons, hstep, ih _ htok2 (by simp only; omega)]
      simp only
      omega
    · have hm : ¬ harvesterRegexp.MatchString v = true := hq
      have hstep : scanStep harvesterRegexp s v = s := by simp [scanStep, hm]
      simp only [List.filter_cons, hq] at hc ⊢
      rw [List.foldl_cons, hstep]
      exact ih s htok2 hc

theorem foldl_scanStep_of_not_qualifies (vs : List Str) (s : ScannerState)
    (h : ∀ l ∈ vs, qualifies l = false) :
    vs.foldl (scanStep harvesterRegexp) s = s := by
  induction vs with
  | nil => rfl
  | cons v vs ih =>
    have hv : harvesterRegexp.MatchString v = false := h v (List.mem_cons_self _ _)
    have hstep : scanStep harvesterRegexp s v = s := by simp [scanStep, hv]
    rw [List.foldl_cons, hstep]
    exact ih (fun l hl => h l (List.mem_cons_of_mem _ hl))

theorem poll_of_not_qualifies (stats : Stats) (s : ScannerState) (e : Str)
    (h : ∀ l ∈ linesScanned s.lastError e, qualifies l = false) :
    getHarvesterErrors stats (.success e) s = some ((s.errorCount : Float64), s) := by
  rw [getHarvesterErrors_success, foldl_scanStep_of_not_qualifies _ s h]

theorem lastError_foldl_of_last (vs : List Str) (s : ScannerState) (l : Str)
    (hl : (vs.filter qualifies).getLast? = some l) (ht : leadingToken l ≠ []) :
    (vs.foldl (scanStep harvesterRegexp) s).lastError = leadingToken l := by
  induction vs using List.reverseRecOn with
  | nil => simp at hl
  | append_singleton vs v ih =>
    rw [List.foldl_append, List.foldl_cons, List.foldl_nil]
    by_cases hq : qualifies v = true
    · have hm : harvesterRegexp.MatchString v = true := hq
      have hlv : l = v := by
        simp [List.filter_append, hq] at hl
        exact hl.symm
      subst hlv
      simp [scanStep, hm, ht]
    · have hm : ¬ harvesterRegexp.MatchString v = true := hq
      have hl2 : (vs.filter qualifies).getLast? = some l := by
        simpa [List.filter_append, hq] using hl
      simp [scanStep, hm, ih hl2]

theorem qualifies_nil : qualifies [] = false := by decide

/-! ## The scanner: claims -/

/-- C1: over any sequence of invocations of `getHarvesterErrors`, started in
any scanner state and with arbitrary retrieval outcomes (a failure, or any
standard error text), every invocation returns and the error count after it is
greater than or equal to the count before it. -/
theorem errorCount_monotone (stats : Stats) (s : ScannerState) :
    (∀ run : Retrieval, ∃ s1, getHarvesterErrors stats run s = some ((s1.errorCount : Float64), s1) ∧
      s.errorCount ≤ s1.errorCount) ∧
    (∀ runs : List Retrieval, ∃ tr, pollTrace stats s runs = some tr ∧
      tr.length = runs.length + 1 ∧
      List.Chain' (fun a b => a.errorCount ≤ b.errorCount) tr) := by
  refine ⟨fun run => errorCount_le_poll stats run s, fun runs => ?_⟩
  obtain ⟨tr, h, hlen, hch⟩ := pollTrace_spec stats runs s
  exact ⟨s :: tr, h, by simp [hlen], hch⟩

/-- C2: when the retrieval fails, `getHarvesterErrors` returns the prior count
and leaves the watermark and the count as they were; the call returns a number
and nothing else. -/
theorem retrieval_failure_keeps_state (stats : Stats) (s : ScannerState) :
    getHarvesterErrors stats .failure s = some ((s.errorCount : Float64), s) :=
  rfl

/-- C3, as stated, fails: from the initial state, a retrieval whose only line
qualifies but starts with a tab leaves the count at zero. -/
theorem count_tabLine_counterexample :
    ((Split tabLine '\n').filter qualifies).length = 1 ∧
    getHarvesterErrors snapshot1 (.success tabLine) ⟨[], 0⟩ = some (0, ⟨[], 0⟩) := by
  decide

/-- C3, amended: with an empty watermark, a successful retrieval with exactly
`n` qualifying lines, each of them with a non-empty leading token, increases
the count by exactly `n` and returns the increased count, as long as the
increased count is at most `2^53`. -/
theorem count_increases_by_qualifying (stats : Stats) (c n : Nat) (e : Str)
    (htok : ∀ l ∈ Split e '\n', qualifies l = true → leadingToken l ≠ [])
    (hn : ((Split e '\n').filter qualifies).length = n)
    (hc : c + n ≤ 2 ^ 53) :
    ∃ w, getHarvesterErrors stats (.success e) ⟨[], c⟩ =
      some (((c + n : Nat) : Float64), ⟨w, c + n⟩) := by
  have hs : linesScanned [] e = Split e '\n' := by simp [linesScanned]
  have hcount := errorCount_foldl_of_tokens (Split e '\n') ⟨[], c⟩ htok (by rw [hn]; exact hc)
  rw [hn] at hcount
  refine ⟨((Split e '\n').foldl (scanStep harvesterRegexp) ⟨[], c⟩).lastError, ?_⟩
  rw [getHarvesterErrors_success]
  simp only [hs, hcount]
  rw [← hcount]

/-- Witness for C3, amended: two error lines around an info line, from the
initial state, give the count two. -/
theorem count_increases_by_qualifying_witness :
    (∀ l ∈ Split (errorLine1 ++ '\n' :: (infoLine ++ '\n' :: errorLine5)) '\n',
      qualifies l = true → leadingToken l ≠ []) ∧
    ((Split (errorLine1 ++ '\n' :: (infoLine ++ '\n' :: errorLine5)) '\n').filter
      qualifies).length = 2 ∧
    0 + 2 ≤ 2 ^ 53 ∧
    ∃ w, getHarvesterErrors snapshot1
      (.success (errorLine1 ++ '\n' :: (infoLine ++ '\n' :: errorLine5))) ⟨[], 0⟩ =
        some (((0 + 2 : Nat) : Float64), ⟨w, 0 + 2⟩) :=
  ⟨by decide, by decide, by decide,
    count_increases_by_qualifying snapshot1 0 2
      (errorLine1 ++ '\n' :: (infoLine ++ '\n' :: errorLine5))
      (by decide) (by decide) (by decide)⟩

/-- C4: an invocation that starts with a non-empty watermark and whose
retrieval succeeds drops exactly the first returned line `d`: the new state is
the one that the loop reaches on the lines after `d`, whatever `d` is, and the
new count is returned; when `d` is the only line the state is unchanged. -/
theorem first_line_dropped (stats : Stats) (s : ScannerState) (d rest : Str)
    (hw : s.lastError ≠ []) (hd : '\n' ∉ d) :
    (∃ s1, scanLines harvesterRegexp s (Split rest '\n') = some s1 ∧
      getHarvesterErrors stats (.success (d ++ '\n' :: rest)) s =
        some ((s1.errorCount : Float64), s1)) ∧
    getHarvesterErrors stats (.success d) s = some ((s.errorCount : Float64), s) := by
  constructor
  · refine ⟨_, scanLines_eq _ _ _, ?_⟩
    rw [getHarvesterErrors_success]
    simp [linesScanned, hw, Split_append '\n' d rest hd]
  · rw [getHarvesterErrors_success]
    simp [linesScanned, hw, Split_of_not_mem '\n' d hd]

/-- Witness for C4: with the watermark `2024-01-01T00:00:01` and the count 1,
a retrieval of the line behind the watermark followed by a new error line with
the token `2024-01-01T00:00:05` gives the count 2 and that token as watermark. -/
theorem first_line_dropped_witness :
    ("2024-01-01T00:00:01".toList ≠ [] ∧ '\n' ∉ errorLine1) ∧
    ((∃ s1, scanLines harvesterRegexp ⟨"2024-01-01T00:00:01".toList, 1⟩
        (Split errorLine5 '\n') = some s1 ∧
      getHarvesterErrors snapshot1 (.success (errorLine1 ++ '\n' :: errorLine5))
        ⟨"2024-01-01T00:00:01".toList, 1⟩ = some ((s1.errorCount : Float64), s1)) ∧
    getHarvesterErrors snapshot1 (.success errorLine1) ⟨"2024-01-01T00:00:01".toList, 1⟩ =
      some (((1 : Nat) : Float64), ⟨"2024-01-01T00:00:01".toList, 1⟩)) ∧
    getHarvesterErrors snapshot1 (.success (errorLine1 ++ '\n' :: errorLine5))
      ⟨"2024-01-01T00:00:01".toList, 1⟩ = some (2, ⟨"2024-01-01T00:00:05".toList, 2⟩) :=
  ⟨⟨by decide, by decide⟩,
    first_line_dropped snapshot1 ⟨"2024-01-01T00:00:01".toList, 1⟩ errorLine1 errorLine5
      (by decide) (by decide),
    by decide⟩

/-- C5: when no scanned line of a successful retrieval qualifies, the
invocation returns the previous count and leaves the watermark and the count
unchanged; the empty output is such a retrieval; and over a sequence of such
retrievals every state is the state before the first of them. -/
theorem no_qualifying_line_keeps_state (stats : Stats) (s : ScannerState) (es : List Str)
    (h : ∀ e ∈ es, ∀ l ∈ linesScanned s.lastError e, qualifies l = false) :
    (∀ e ∈ es, getHarvesterErrors stats (.success e) s = some ((s.errorCount : Float64), s)) ∧
    getHarvesterErrors stats (.success []) s = some ((s.errorCount : Float64), s) ∧
    pollTrace stats s (es.map Retrieval.success) = some (List.replicate (es.length + 1) s) := by
  refine ⟨fun e he => poll_of_not_qualifies stats s e (h e he), ?_, ?_⟩
  · apply poll_of_not_qualifies
    intro l hl
    have hl2 : l = [] := by
      unfold linesScanned at hl
      split_ifs at hl
      · simpa [Split, splitParts] using hl
      · simp [Split, splitParts] at hl
    rw [hl2]
    exact qualifies_nil
  · induction es with
    | nil => rfl
    | cons e es ih =>
      have he := poll_of_not_qualifies stats s e (h e (List.mem_cons_self _ _))
      have ih2 := ih (fun e2 he2 => h e2 (List.mem_cons_of_mem _ he2))
      simp [pollTrace, he, ih2, List.replicate_succ]

/-- Witness for C5: with the watermark `2024-01-01T00:00:01` and the count 1,
a retrieval of the line behind the watermark and an info line, and an empty
retrieval, leave the state as it is. -/
theorem no_qualifying_line_keeps_state_witness :
    (∀ e ∈ [errorLine1 ++ '\n' :: infoLine, []],
      ∀ l ∈ linesScanned "2024-01-01T00:00:01".toList e, qualifies l = false) ∧
    (∀ e ∈ [errorLine1 ++ '\n' :: infoLine, []],
      getHarvesterErrors snapshot1 (.success e) ⟨"2024-01-01T00:00:01".toList, 1⟩ =
        some (((1 : Nat) : Float64), ⟨"2024-01-01T00:00:01".toList, 1⟩)) ∧
    getHarvesterErrors snapshot1 (.success []) ⟨"2024-01-01T00:00:01".toList, 1⟩ =
      some (((1 : Nat) : Float64), ⟨"2024-01-01T00:00:01".toList, 1⟩) ∧
    pollTrace snapshot1 ⟨"2024-01-01T00:00:01".toList, 1⟩
      ([errorLine1 ++ '\n' :: infoLine, []].map Retrieval.success) =
        some (List.replicate 3 ⟨"2024-01-01T00:00:01".toList, 1⟩) :=
  ⟨by decide,
    no_qualifying_line_keeps_state snapshot1 ⟨"2024-01-01T00:00:01".toList, 1⟩
      [errorLine1 ++ '\n' :: infoLine, []] (by decide)⟩

/-- C6, as stated, fails: from the initial state, after a retrieval of an
error line with the token `2024-01-01T00:00:01` followed by a qualifying line
that starts with a tab, the last qualifying line has the empty leading token
but the watermark is `2024-01-01T00:00:01`. -/
theorem watermark_tabLine_counterexample :
    ((linesScanned [] (errorLine1 ++ '\n' :: tabLine)).filter qualifies).getLast? =
      some tabLine ∧
    leadingToken tabLine = [] ∧
    getHarvesterErrors snapshot1 (.success (errorLine1 ++ '\n' :: tabLine)) ⟨[], 0⟩ =
      some (1, ⟨"2024-01-01T00:00:01".toList, 1⟩) ∧
    "2024-01-01T00:00:01".toList ≠ leadingToken tabLine := by
  decide

/-- C6, amended: after a successful invocation, if some scanned line qualifies
and the last qualifying line has a non-empty leading token, the watermark is
that token; if no scanned line qualifies, the watermark is unchanged. -/
theorem watermark_is_last_token (stats : Stats) (s : ScannerState) (e : Str)
    (htok : ∀ l, ((linesScanned s.lastError e).filter qualifies).getLast? = some l →
      leadingToken l ≠ []) :
    ∃ s1, getHarvesterErrors stats (.success e) s = some ((s1.errorCount : Float64), s1) ∧
      (∀ l, ((linesScanned s.lastError e).filter qualifies).getLast? = some l →
        s1.lastError = leadingToken l) ∧
      ((∀ l ∈ linesScanned s.lastError e, qualifies l = false) →
        s1.lastError = s.lastError) := by
  refine ⟨_, getHarvesterErrors_success stats e s, ?_, ?_⟩
  · intro l hl
    exact lastError_foldl_of_last _ s l hl (htok l hl)
  · intro hnone
    rw [foldl_scanStep_of_not_qualifies _ s hnone]

/-- Witness for C6, amended: from the initial state, a retrieval of an error
line with the token `2024-01-01T00:00:01` and an info line gives the count 1
and the watermark `2024-01-01T00:00:01`. -/
theorem watermark_is_last_token_witness :
    (∀ l, ((linesScanned [] (errorLine1 ++ '\n' :: infoLine)).filter qualifies).getLast? =
      some l → leadingToken l ≠ []) ∧
    (∃ s1, getHarvesterErrors snapshot1 (.success (errorLine1 ++ '\n' :: infoLine)) ⟨[], 0⟩ =
        some ((s1.errorCount : Float64), s1) ∧
      (∀ l, ((linesScanned [] (errorLine1 ++ '\n' :: infoLine)).filter qualifies).getLast? =
        some l → s1.lastError = leadingToken l) ∧
      ((∀ l ∈ linesScanned [] (errorLine1 ++ '\n' :: infoLine), qualifies l = false) →
        s1.lastError = ([] : Str))) ∧
    getHarvesterErrors snapshot1 (.success (errorLine1 ++ '\n' :: infoLine)) ⟨[], 0⟩ =
      some (1, ⟨"2024-01-01T00:00:01".toList, 1⟩) :=
  have hlast : ((linesScanned [] (errorLine1 ++ '\n' :: infoLine)).filter qualifies).getLast? =
      some errorLine1 := by decide
  have htok : ∀ l, ((linesScanned [] (errorLine1 ++ '\n' :: infoLine)).filter
      qualifies).getLast? = some l → leadingToken l ≠ [] := by
    intro l hl
    rw [hlast] at hl
    cases hl
    decide
  ⟨htok, watermark_is_last_token snapshot1 ⟨[], 0⟩ (errorLine1 ++ '\n' :: infoLine) htok,
    by decide⟩

/-! ## Lemmas on the collector -/

theorem BuildFQName_filebeat (c name : Str) (hc : c ≠ []) (hn : name ≠ []) :
    BuildFQName c "filebeat".toList name = c ++ ("_filebeat_".toList ++ name) := by
  have hf : "filebeat".toList ≠ [] := by decide
  unfold BuildFQName
  rw [if_neg hn, if_pos ⟨hc, hf⟩]
  rfl

theorem BuildFQName_filebeat_nil (name : Str) (hn : name ≠ []) :
    BuildFQName [] "filebeat".toList name = "filebeat_".toList ++ name := by
  have hf : "filebeat".toList ≠ [] := by decide
  unfold BuildFQName
  rw [if_neg hn, if_neg (by simp), if_neg (by simp), if_pos hf]
  rfl

theorem IsValidMetricName_append (a t : Str) (ha : IsValidMetricName a = true)
    (ht : t.all metricNameChar = true) : IsValidMetricName (a ++ t) = true := by
  cases a with
  | nil => simp [IsValidMetricName] at ha
  | cons c cs =>
    simp only [IsValidMetricName, List.cons_append, List.all_append, Bool.and_eq_true] at ha ⊢
    exact ⟨ha.1, ha.2, ht⟩

theorem IsValidMetricName_family (c name : Str) (hc : validComponent c = true)
    (hn : name ≠ []) (hs : name.all metricNameChar = true) :
    IsValidMetricName (BuildFQName c "filebeat".toList name) = true := by
  by_cases h : c = []
  · rw [h, BuildFQName_filebeat_nil name hn]
    exact IsValidMetricName_append _ _ (by decide) hs
  · rw [BuildFQName_filebeat c name h hn]
    have hv : IsValidMetricName c = true := by
      cases c with
      | nil => exact absurd rfl h
      | cons x xs => simpa [validComponent] using hc
    apply IsValidMetricName_append c _ hv
    rw [List.all_append, hs]
    decide

theorem NewDesc_valid (fqName help label value : Str) (hf : IsValidMetricName fqName = true)
    (hl : checkLabelName label = true) :
    NewDesc fqName help [] [(label, value)] = ⟨fqName, help, [], [(label, value)], false⟩ := by
  simp [NewDesc, hf, hl]

theorem metrics_desc_eq (b : BeatInfo) (stats : Stats) (v : Float64)
    (hb : validComponent b.Beat = true) :
    (NewFilebeatCollector b stats).metrics.map (fun m => m.desc) =
      (scrapeSamples b.Beat stats v).map (fun m => m.desc) := by
  have hE := IsValidMetricName_family b.Beat "events".toList hb (by decide) (by decide)
  have hH := IsValidMetricName_family b.Beat "harvester".toList hb (by decide) (by decide)
  have hI := IsValidMetricName_family b.Beat "input_log".toList hb (by decide) (by decide)
  have l1 : checkLabelName "event".toList = true := by decide
  have l2 : checkLabelName "harvester".toList = true := by decide
  have l3 : checkLabelName "files".toList = true := by decide
  simp only [NewFilebeatCollector, List.map_cons, List.map_nil,
    NewDesc_valid _ _ _ _ hE l1, NewDesc_valid _ _ _ _ hH l2, NewDesc_valid _ _ _ _ hI l3]
  rfl

theorem Collect_eq (b : BeatInfo) (stats : Stats) (run : Retrieval) (s s1 : ScannerState)
    (v : Float64) (hb : validComponent b.Beat = true)
    (h : getHarvesterErrors stats run s = some (v, s1)) :
    (NewFilebeatCollector b stats).Collect run s = some (scrapeSamples b.Beat stats v, s1) := by
  have hE := IsValidMetricName_family b.Beat "events".toList hb (by decide) (by decide)
  have hH := IsValidMetricName_family b.Beat "harvester".toList hb (by decide) (by decide)
  have hI := IsValidMetricName_family b.Beat "input_log".toList hb (by decide) (by decide)
  have l1 : checkLabelName "event".toList = true := by decide
  have l2 : checkLabelName "harvester".toList = true := by decide
  have l3 : checkLabelName "files".toList = true := by decide
  unfold filebeatCollector.Collect NewFilebeatCollector
  simp only [collectLoop, statEval, h, MustNewConstMetric,
    NewDesc_valid _ _ _ _ hE l1, NewDesc_valid _ _ _ _ hH l2, NewDesc_valid _ _ _ _ hI l3]
  rfl

theorem describeLoop_eq (ms : exportedMetrics) :
    describeLoop ms = ms.map (fun m => m.desc) := by
  induction ms with
  | nil => rfl
  | cons m ms ih => simp [describeLoop, ih]

theorem Describe_eq (b : BeatInfo) (stats : Stats) (s : ScannerState) (v : Float64)
    (hb : validComponent b.Beat = true) :
    ((NewFilebeatCollector b stats).Describe s).1 =
      (scrapeSamples b.Beat stats v).map (fun m => m.desc) := by
  rw [← metrics_desc_eq b stats v hb]
  exact describeLoop_eq _

/-! ## The collector: claims -/

/-- C7, as stated, fails: with the component name `my-beat` the family names
are not valid metric names, and `Collect` panics on the snapshot of the first
example scenario, with no watermark and an empty retrieval. -/
theorem Collect_dashed_name_counterexample :
    validComponent dashedBeat.Beat = false ∧
    (NewFilebeatCollector dashedBeat snapshot1).Collect (.success []) ⟨[], 0⟩ = none := by
  decide

/-- C7, amended: for every component name with which the family names are
valid metric names, and every snapshot, scanner state and retrieval outcome,
`Collect` returns and emits eleven samples, one per declared descriptor and in
the order of the declarations; each of the ten stat-derived samples carries
the direct read of its snapshot field under its label, and the harvester
errors sample carries the count that the scanner returns.  For the snapshot of
the first example scenario, no watermark and an empty retrieval, the values
are 3, 10, 7, 1, 2, 1, 0, 2, 0 (errors), 0, 1. -/
theorem Collect_emits_one_sample_per_declaration (b : BeatInfo) (stats : Stats)
    (run : Retrieval) (s : ScannerState) (hb : validComponent b.Beat = true) :
    (∃ ms s1, (NewFilebeatCollector b stats).Collect run s = some (ms, s1) ∧
      getHarvesterErrors stats run s = some ((s1.errorCount : Float64), s1) ∧
      ms = scrapeSamples b.Beat stats (s1.errorCount : Float64) ∧
      ms.length = 11 ∧
      ms.map (fun m => m.desc) = ((NewFilebeatCollector b stats).Describe s).1 ∧
      ms.map (fun m => m.desc) = (NewFilebeatCollector b stats).metrics.map (fun m => m.desc)) ∧
    ((NewFilebeatCollector b snapshot1).Collect (.success []) ⟨[], 0⟩).map
      (fun r => r.1.map (fun m => (m.desc.constLabels, m.value))) =
      some [([("event".toList, "active".toList)], 3), ([("event".toList, "added".toList)], 10),
        ([("event".toList, "done".toList)], 7), ([("harvester".toList, "closed".toList)], 1),
        ([("harvester".toList, "open_files".toList)], 2),
        ([("harvester".toList, "running".toList)], 1),
        ([("harvester".toList, "skipped".toList)], 0),
        ([("harvester".toList, "started".toList)], 2),
        ([("harvester".toList, "errors".toList)], 0),
        ([("files".toList, "renamed".toList)], 0),
        ([("files".toList, "truncated".toList)], 1)] := by
  constructor
  · obtain ⟨s1, h1, _⟩ := errorCount_le_poll stats run s
    exact ⟨_, s1, Collect_eq b stats run s s1 _ hb h1, h1, rfl, rfl,
      (Describe_eq b stats s _ hb).symm, (metrics_desc_eq b stats _ hb).symm⟩
  · rw [Collect_eq b snapshot1 (.success []) ⟨[], 0⟩ ⟨[], 0⟩ 0 hb (by decide)]
    rfl

/-- Witness for C7, amended: the component name `beat`, the snapshot of the
first example scenario, no watermark and an empty retrieval. -/
theorem Collect_emits_one_sample_per_declaration_witness :
    validComponent plainBeat.Beat = true ∧
    (∃ ms s1, (NewFilebeatCollector plainBeat snapshot1).Collect (.success []) ⟨[], 0⟩ =
        some (ms, s1) ∧
      ms = scrapeSamples plainBeat.Beat snapshot1 (s1.errorCount : Float64) ∧
      ms.length = 11) ∧
    ((NewFilebeatCollector plainBeat snapshot1).Collect (.success []) ⟨[], 0⟩).map
      (fun r => r.1.map (fun m => (m.desc.fqName, m.desc.err, m.value))) =
      some [("beat_filebeat_events".toList, false, 3),
        ("beat_filebeat_events".toList, false, 10),
        ("beat_filebeat_events".toList, false, 7),
        ("beat_filebeat_harvester".toList, false, 1),
        ("beat_filebeat_harvester".toList, false, 2),
        ("beat_filebeat_harvester".toList, false, 1),
        ("beat_filebeat_harvester".toList, false, 0),
        ("beat_filebeat_harvester".toList, false, 2),
        ("beat_filebeat_harvester".toList, false, 0),
        ("beat_filebeat_input_log".toList, false, 0),
        ("beat_filebeat_input_log".toList, false, 1)] :=
  ⟨by decide,
    (let ⟨⟨ms, s1, h, _, hms, hlen, _⟩, _⟩ :=
      Collect_emits_one_sample_per_declaration plainBeat snapshot1 (.success []) ⟨[], 0⟩
        (by decide)
     ⟨ms, s1, h, hms, hlen⟩),
    by decide⟩

/-- C9: `Describe` emits the descriptors of the declarations, eleven in all and
in the order of the declarations; the sequence is the same for any two
snapshots and any two scanner states, so repeated calls give the same
descriptors, and `Describe` leaves the watermark and the count as they are. -/
theorem Describe_stable (b : BeatInfo) (stats1 stats2 : Stats) (s1 s2 : ScannerState) :
    ((NewFilebeatCollector b stats1).Describe s1).1 =
      ((NewFilebeatCollector b stats2).Describe s2).1 ∧
    ((NewFilebeatCollector b stats1).Describe s1).1 =
      (NewFilebeatCollector b stats1).metrics.map (fun m => m.desc) ∧
    ((NewFilebeatCollector b stats1).Describe s1).1.length = 11 ∧
    ((NewFilebeatCollector b stats1).Describe s1).2 = s1 ∧
    ((NewFilebeatCollector b stats1).Describe
      ((NewFilebeatCollector b stats1).Describe s1).2).1 =
      ((NewFilebeatCollector b stats1).Describe s1).1 :=
  ⟨rfl, rfl, rfl, rfl, rfl⟩

/-- C10, as stated, fails: with the non-empty component name `my-beat` the
eleven descriptors carry an error and no label, and the pairs of family and
label values are not pairwise distinct. -/
theorem declarations_dashed_name_counterexample :
    dashedBeat.Beat ≠ [] ∧
    (NewFilebeatCollector dashedBeat snapshot1).metrics.map
      (fun m => (m.desc.constLabels, m.desc.err)) = List.replicate 11 ([], true) ∧
    ¬ ((NewFilebeatCollector dashedBeat snapshot1).metrics.map
      (fun m => (m.desc.fqName, m.desc.constLabels.map (fun kv => kv.2)))).Nodup := by
  decide

/-- C10, amended: for a non-empty component name `c` that is a valid metric
name, the declarations built by `NewFilebeatCollector` are eleven valid
descriptors: the family `c_filebeat_events` with the label `event` = active,
added, done; the family `c_filebeat_harvester` with the label `harvester` =
closed, open_files, running, skipped, started, errors; the family
`c_filebeat_input_log` with the label `files` = renamed, truncated; none has a
variable label, all are of untyped value type, and the eleven pairs of family
and label value are pairwise distinct. -/
theorem declarations_are_the_eleven_identities (c : Str) (stats : Stats) (hc : c ≠ [])
    (hv : IsValidMetricName c = true) :
    (NewFilebeatCollector ⟨c⟩ stats).metrics.map
        (fun m => (m.desc.fqName, m.desc.variableLabels, m.desc.constLabels, m.valType)) =
      [ (c ++ "_filebeat_events".toList, [], [("event".toList, "active".toList)],
          ValueType.UntypedValue),
        (c ++ "_filebeat_events".toList, [], [("event".toList, "added".toList)],
          ValueType.UntypedValue),
        (c ++ "_filebeat_events".toList, [], [("event".toList, "done".toList)],
          ValueType.UntypedValue),
        (c ++ "_filebeat_harvester".toList, [], [("harvester".toList, "closed".toList)],
          ValueType.UntypedValue),
        (c ++ "_filebeat_harvester".toList, [], [("harvester".toList, "open_files".toList)],
          ValueType.UntypedValue),
        (c ++ "_filebeat_harvester".toList, [], [("harvester".toList, "running".toList)],
          ValueType.UntypedValue),
        (c ++ "_filebeat_harvester".toList, [], [("harvester".toList, "skipped".toList)],
          ValueType.UntypedValue),
        (c ++ "_filebeat_harvester".toList, [], [("harvester".toList, "started".toList)],
          ValueType.UntypedValue),
        (c ++ "_filebeat_harvester".toList, [], [("harvester".toList, "errors".toList)],
          ValueType.UntypedValue),
        (c ++ "_filebeat_input_log".toList, [], [("files".toList, "renamed".toList)],
          ValueType.UntypedValue),
        (c ++ "_filebeat_input_log".toList, [], [("files".toList, "truncated".toList)],
          ValueType.UntypedValue) ] ∧
    (∀ m ∈ (NewFilebeatCollector ⟨c⟩ stats).metrics, m.desc.err = false) ∧
    ((NewFilebeatCollector ⟨c⟩ stats).metrics.map
      (fun m => (m.desc.fqName, m.desc.constLabels.map (fun kv => kv.2)))).Nodup := by
  have hb : validComponent c = true := by simp [validComponent, hv]
  have hE := IsValidMetricName_family c "events".toList hb (by decide) (by decide)
  have hH := IsValidMetricName_family c "harvester".toList hb (by decide) (by decide)
  have hI := IsValidMetricName_family c "input_log".toList hb (by decide) (by decide)
  have l1 : checkLabelName "event".toList = true := by decide
  have l2 : checkLabelName "harvester".toList = true := by decide
  have l3 : checkLabelName "files".toList = true := by decide
  refine ⟨?_, ?_, ?_⟩
  · have h1 := BuildFQName_filebeat c "events".toList hc (by decide)
    have h2 := BuildFQName_filebeat c "harvester".toList hc (by decide)
    have h3 := BuildFQName_filebeat c "input_log".toList hc (by decide)
    simp only [NewFilebeatCollector, List.map_cons, List.map_nil,
      NewDesc_valid _ _ _ _ hE l1, NewDesc_valid _ _ _ _ hH l2, NewDesc_valid _ _ _ _ hI l3]
    simp only [h1, h2, h3]
    rfl
  · intro m hm
    have hmem : m.desc ∈ (NewFilebeatCollector ⟨c⟩ stats).metrics.map (fun m => m.desc) :=
      List.mem_map_of_mem _ hm
    rw [metrics_desc_eq ⟨c⟩ stats 0 hb] at hmem
    simp only [scrapeSamples, untypedSample, identity, List.map_cons, List.map_nil,
      List.mem_cons, List.mem_singleton, List.not_mem_nil, or_false] at hmem
    rcases hmem with h | h | h | h | h | h | h | h | h | h | h <;> rw [h]
  · apply List.Nodup.of_map Prod.snd
    simp only [NewFilebeatCollector, List.map_cons, List.map_nil,
      NewDesc_valid _ _ _ _ hE l1, NewDesc_valid _ _ _ _ hH l2, NewDesc_valid _ _ _ _ hI l3]
    decide

/-- Witness for C10, amended: the component name `beat` gives the families
`beat_filebeat_events`, `beat_filebeat_harvester` and `beat_filebeat_input_log`. -/
theorem declarations_are_the_eleven_identities_witness :
    (plainBeat.Beat ≠ [] ∧ IsValidMetricName plainBeat.Beat = true) ∧
    (NewFilebeatCollector plainBeat snapshot1).metrics.map
        (fun m => (m.desc.fqName, m.desc.constLabels, m.desc.err)) =
      [ ("beat_filebeat_events".toList, [("event".toList, "active".toList)], false),
        ("beat_filebeat_events".toList, [("event".toList, "added".toList)], false),
        ("beat_filebeat_events".toList, [("event".toList, "done".toList)], false),
        ("beat_filebeat_harvester".toList, [("harvester".toList, "closed".toList)], false),
        ("beat_filebeat_harvester".toList, [("harvester".toList, "open_files".toList)], false),
        ("beat_filebeat_harvester".toList, [("harvester".toList, "running".toList)], false),
        ("beat_filebeat_harvester".toList, [("harvester".toList, "skipped".toList)], false),
        ("beat_filebeat_harvester".toList, [("harvester".toList, "started".toList)], false),
        ("beat_filebeat_harvester".toList, [("harvester".toList, "errors".toList)], false),
        ("beat_filebeat_input_log".toList, [("files".toList, "renamed".toList)], false),
        ("beat_filebeat_input_log".toList, [("files".toList, "truncated".toList)], false) ] ∧
    ((NewFilebeatCollector plainBeat snapshot1).metrics.map
      (fun m => (m.desc.fqName, m.desc.constLabels.map (fun kv => kv.2)))).Nodup :=
  ⟨⟨by decide, by decide⟩, by decide,
    (declarations_are_the_eleven_identities plainBeat.Beat snapshot1 (by decide)
      (by decide)).2.2⟩

/-! ## Lemmas on the pattern -/

theorem dropLit_eq_some (p s t : Str) : dropLit p s = some t ↔ s = p ++ t := by
  induction p generalizing s with
  | nil => simp [dropLit, eq_comm]
  | cons a p ih =>
    cases s with
    | nil => simp [dropLit]
    | cons c cs =>
      by_cases h : a = c
      · simp [dropLit, h, ih]
      · have h2 : ¬ c = a := fun e => h e.symm
        simp [dropLit, h, h2]

theorem mem_dotRests (s t : Str) :
    t ∈ dotRests s ↔ ∃ m, s = m ++ t ∧ '\n' ∉ m := by
  induction s with
  | nil =>
    simp only [dotRests, List.mem_singleton]
    constructor
    · intro h
      exact ⟨[], by simp [h], by simp⟩
    · rintro ⟨m, hm, _⟩
      have := List.append_eq_nil.mp hm.symm
      exact this.2
  | cons c cs ih =>
    simp only [dotRests, List.mem_cons]
    constructor
    · rintro (h | h)
      · exact ⟨[], by simp [h], by simp⟩
      · by_cases hc : c = '\n'
        · simp [hc] at h
        · rw [if_neg hc] at h
          obtain ⟨m, hm, hn⟩ := ih.mp h
          refine ⟨c :: m, by simp [hm], ?_⟩
          intro hmem
          rcases List.mem_cons.mp hmem with h1 | h1
          · exact hc h1.symm
          · exact hn h1
    · rintro ⟨m, hm, hn⟩
      cases m with
      | nil => left; simpa using hm.symm
      | cons a m =>
        right
        simp only [List.cons_append, List.cons.injEq] at hm
        obtain ⟨hca, hcs⟩ := hm
        have hc : ¬ c = '\n' := by
          intro h
          apply hn
          simp [← hca, h]
        rw [if_neg hc]
        exact ih.mpr ⟨m, hcs, fun h => hn (List.mem_cons_of_mem _ h)⟩

theorem MatchString_iff (r : Regexp) (s : Str) :
    r.MatchString s = true ↔ ∃ a t x, s = a ++ t ∧ x ∈ r.rests t := by
  unfold Regexp.MatchString
  rw [List.any_eq_true]
  constructor
  · rintro ⟨t, ht, hne⟩
    obtain ⟨a, ha⟩ := (List.mem_tails t s).mp ht
    cases hr : r.rests t with
    | nil => simp [hr] at hne
    | cons x xs => exact ⟨a, t, x, ha.symm, by rw [hr]; exact List.mem_cons_self _ _⟩
  · rintro ⟨a, t, x, hs, hx⟩
    refine ⟨t, (List.mem_tails t s).mpr ⟨a, hs.symm⟩, ?_⟩
    cases hr : r.rests t with
    | nil => simp [hr] at hx
    | cons y ys => simp [hr]

theorem mem_rests_harvesterRegexp (t x : Str) :
    x ∈ harvesterRegexp.rests t ↔
      ∃ b c, '\n' ∉ b ∧ '\n' ∉ c ∧
        t = "ERROR".toList ++ (b ++ ("harvester".toList ++ (c ++ ("Read line error".toList ++ x)))) := by
  simp only [harvesterRegexp, Regexp.rests, List.mem_flatMap, Option.mem_toList, Option.mem_def,
    dropLit_eq_some, mem_dotRests]
  constructor
  · rintro ⟨t1, h1, t2, ⟨b, hb, hbn⟩, t3, h3, t4, ⟨c, hc, hcn⟩, h5⟩
    refine ⟨b, c, hbn, hcn, ?_⟩
    rw [h1, hb, h3, hc, h5]
  · rintro ⟨b, c, hbn, hcn, ht⟩
    exact ⟨_, ht, _, ⟨b, rfl, hbn⟩, _, rfl, _, ⟨c, rfl, hcn⟩, rfl⟩

theorem qualifies_iff (l : Str) :
    qualifies l = true ↔
      ∃ a b c d, '\n' ∉ b ∧ '\n' ∉ c ∧
        l = a ++ ("ERROR".toList ++ (b ++ ("harvester".toList ++
          (c ++ ("Read line error".toList ++ d))))) := by
  unfold qualifies
  rw [MatchString_iff]
  constructor
  · rintro ⟨a, t, x, hs, hx⟩
    obtain ⟨b, c, hb, hc, ht⟩ := (mem_rests_harvesterRegexp t x).mp hx
    exact ⟨a, b, c, x, hb, hc, by rw [hs, ht]⟩
  · rintro ⟨a, b, c, d, hb, hc, hl⟩
    exact ⟨a, _, d, hl, (mem_rests_harvesterRegexp _ d).mpr ⟨b, c, hb, hc, rfl⟩⟩

theorem not_mem_of_append_left {x : Char} {l a b : Str} (h : l = a ++ b) (hl : x ∉ l) : x ∉ a := by
  intro ha
  apply hl
  rw [h]
  exact List.mem_append_left _ ha

theorem not_mem_of_append_right {x : Char} {l a b : Str} (h : l = a ++ b) (hl : x ∉ l) : x ∉ b := by
  intro hb
  apply hl
  rw [h]
  exact List.mem_append_right _ hb

/-! ## The error signature: claim -/

/-- C11: a line without a newline qualifies under the error signature, that
is, the pattern of `getHarvesterErrors` matches it, exactly when it is some
text, then `ERROR`, then some text, then `harvester`, then some text, then
`Read line error`, then some text: the three markers in this order, one after
the end of the other, anywhere in the line and letter for letter. -/
theorem qualifies_iff_markers_in_order (l : Str) (hl : '\n' ∉ l) :
    qualifies l = true ↔
      ∃ a b c d, l = a ++ ("ERROR".toList ++ (b ++ ("harvester".toList ++
        (c ++ ("Read line error".toList ++ d))))) := by
  rw [qualifies_iff]
  constructor
  · rintro ⟨a, b, c, d, _, _, h⟩
    exact ⟨a, b, c, d, h⟩
  · rintro ⟨a, b, c, d, h⟩
    have h1 := not_mem_of_append_right h hl
    have h2 := not_mem_of_append_right rfl h1
    have hb := not_mem_of_append_left rfl h2
    have h3 := not_mem_of_append_right rfl h2
    have h4 := not_mem_of_append_right rfl h3
    have hc := not_mem_of_append_left rfl h4
    exact ⟨a, b, c, d, hb, hc, h⟩

/-- Witness for C11: the error line `errorLine1` qualifies, the same line in
lower case does not, and a line with the markers in the opposite order does
not. -/
theorem qualifies_iff_markers_in_order_witness :
    '\n' ∉ errorLine1 ∧
    (qualifies errorLine1 = true ↔
      ∃ a b c d, errorLine1 = a ++ ("ERROR".toList ++ (b ++ ("harvester".toList ++
        (c ++ ("Read line error".toList ++ d)))))) ∧
    qualifies errorLine1 = true ∧
    qualifies lowerCaseLine = false ∧
    qualifies reversedLine = false :=
  ⟨by decide, qualifies_iff_markers_in_order errorLine1 (by decide), by decide, by decide,
    by decide⟩

/-! ## Lemmas on sequences of invocations -/

theorem splitParts_append_sep (sep : Char) (a b : Str) :
    splitParts sep (a ++ sep :: b) =
      ((splitParts sep a).1, (splitParts sep a).2 ++ Split b sep) := by
  induction a with
  | nil => simp [splitParts, Split]
  | cons c cs ih =>
    by_cases h : c = sep
    · simp [splitParts, h, ih]
    · simp [splitParts, h, ih]

theorem Split_append_sep (sep : Char) (a b : Str) :
    Split (a ++ sep :: b) sep = Split a sep ++ Split b sep := by
  simp [Split, splitParts_append_sep]

theorem foldl_scanStep_induction (r : Regexp) (P : ScannerState → Prop) (vs : List Str)
    (s : ScannerState) (h0 : P s)
    (hstep : ∀ s v, v ∈ vs → P s → P (scanStep r s v)) :
    P (vs.foldl (scanStep r) s) := by
  induction vs generalizing s with
  | nil => exact h0
  | cons v vs ih =>
    rw [List.foldl_cons]
    exact ih _ (hstep s v (List.mem_cons_self _ _) h0)
      (fun s2 v2 hv2 => hstep s2 v2 (List.mem_cons_of_mem _ hv2))

theorem float64AddOne_ne_zero (c : Nat) : float64AddOne c ≠ 0 := by
  unfold float64AddOne
  split_ifs with h
  · omega
  · intro h0
    rw [h0] at h
    exact h (by norm_num)

theorem scanStep_zero_iff (r : Regexp) (s : ScannerState) (v : Str)
    (h : s.errorCount = 0 ↔ s.lastError = []) :
    (scanStep r s v).errorCount = 0 ↔ (scanStep r s v).lastError = [] := by
  unfold scanStep
  split_ifs with hc
  · simp [float64AddOne_ne_zero, hc.2]
  · exact h

theorem scanStep_lastError_ne (r : Regexp) (s : ScannerState) (v : Str)
    (h : s.lastError ≠ []) : (scanStep r s v).lastError ≠ [] := by
  unfold scanStep
  split_ifs with hc
  · exact hc.2
  · exact h

theorem poll_watermark (stats : Stats) (run : Retrieval) (s : ScannerState) :
    ∃ s1, getHarvesterErrors stats run s = some ((s1.errorCount : Float64), s1) ∧
      ((s.errorCount = 0 ↔ s.lastError = []) → (s1.errorCount = 0 ↔ s1.lastError = [])) ∧
      (s.lastError ≠ [] → s1.lastError ≠ []) := by
  cases run with
  | failure => exact ⟨s, rfl, id, id⟩
  | success e =>
    refine ⟨_, getHarvesterErrors_success stats e s, fun h => ?_, fun h => ?_⟩
    · exact foldl_scanStep_induction _ (fun x => x.errorCount = 0 ↔ x.lastError = []) _ s h
        (fun s2 v _ h2 => scanStep_zero_iff _ s2 v h2)
    · exact foldl_scanStep_induction _ (fun x => x.lastError ≠ []) _ s h
        (fun s2 v _ h2 => scanStep_lastError_ne _ s2 v h2)

theorem pollTrace_watermark (stats : Stats) (runs : List Retrieval) (s : ScannerState) :
    ∃ tr, pollTrace stats s runs = some (s :: tr) ∧ tr.length = runs.length ∧
      ((s.errorCount = 0 ↔ s.lastError = []) →
        ∀ x ∈ tr, (x.errorCount = 0 ↔ x.lastError = [])) ∧
      (s.lastError ≠ [] → ∀ x ∈ tr, x.lastError ≠ []) ∧
      List.Pairwise (fun a b : ScannerState => a.lastError ≠ [] → b.lastError ≠ []) (s :: tr) := by
  induction runs generalizing s with
  | nil => exact ⟨[], rfl, rfl, by simp, by simp, by simp⟩
  | cons run runs ih =>
    obtain ⟨s1, h1, hinv, hne⟩ := poll_watermark stats run s
    obtain ⟨tr, h2, hlen, hinv2, hne2, hpw⟩ := ih s1
    refine ⟨s1 :: tr, ?_, by simp [hlen], ?_, ?_, ?_⟩
    · simp [pollTrace, h1, h2]
    · intro h x hx
      rcases List.mem_cons.mp hx with hx | hx
      · rw [hx]; exact hinv h
      · exact hinv2 (hinv h) x hx
    · intro h x hx
      rcases List.mem_cons.mp hx with hx | hx
      · rw [hx]; exact hne h
      · exact hne2 (hne h) x hx
    · refine List.Pairwise.cons ?_ hpw
      intro x hx h
      rcases List.mem_cons.mp hx with hx | hx
      · rw [hx]; exact hne h
      · exact hne2 (hne h) x hx

/-! ## The scanner behind the collector: claims -/

/-- C12, as stated, fails: with the component name `my-beat`, from the
initial state and a retrieval of one error line, one invocation of
`getHarvesterErrors` returns 1 and sets the watermark, but `Collect` panics
and emits no sample. -/
theorem Collect_probe_dashed_name_counterexample :
    validComponent dashedBeat.Beat = false ∧
    getHarvesterErrors snapshot1 (.success errorLine1) ⟨[], 0⟩ =
      some (1, ⟨"2024-01-01T00:00:01".toList, 1⟩) ∧
    (NewFilebeatCollector dashedBeat snapshot1).Collect (.success errorLine1) ⟨[], 0⟩ =
      none := by
  decide

/-- C12, amended: for every component name with which the family names are
valid metric names, and every snapshot, scanner state and retrieval outcome,
`Collect` returns; its harvester errors sample carries the count that one
invocation of `getHarvesterErrors` on that outcome returns, which is the count
of the state after that invocation; the state after `Collect` is the state
after that one invocation; and with another snapshot the invocation, the
sample and the state after `Collect` are the same. -/
theorem Collect_probes_scanner_once (b : BeatInfo) (stats stats2 : Stats) (run : Retrieval)
    (s : ScannerState) (hb : validComponent b.Beat = true) :
    ∃ ms ms2 s1, getHarvesterErrors stats run s = some ((s1.errorCount : Float64), s1) ∧
      (NewFilebeatCollector b stats).Collect run s = some (ms, s1) ∧
      ms.get? 8 = some (untypedSample
        (identity b.Beat "harvester".toList "harvester".toList "errors".toList)
        (s1.errorCount : Float64)) ∧
      getHarvesterErrors stats2 run s = getHarvesterErrors stats run s ∧
      (NewFilebeatCollector b stats2).Collect run s = some (ms2, s1) ∧
      ms2.get? 8 = ms.get? 8 := by
  obtain ⟨s1, h1, _⟩ := errorCount_le_poll stats run s
  have h2 : getHarvesterErrors stats2 run s = some ((s1.errorCount : Float64), s1) := h1
  exact ⟨_, _, s1, h1, Collect_eq b stats run s s1 _ hb h1, rfl, h2.trans h1.symm,
    Collect_eq b stats2 run s s1 _ hb h2, rfl⟩

/-- Witness for C12, amended: the component name `beat`, the initial state and
a retrieval of one error line: the errors sample is 1 and the state after
`Collect` has the count 1 and the watermark `2024-01-01T00:00:01`. -/
theorem Collect_probes_scanner_once_witness :
    validComponent plainBeat.Beat = true ∧
    (∃ ms ms2 s1, getHarvesterErrors snapshot1 (.success errorLine1) ⟨[], 0⟩ =
        some ((s1.errorCount : Float64), s1) ∧
      (NewFilebeatCollector plainBeat snapshot1).Collect (.success errorLine1) ⟨[], 0⟩ =
        some (ms, s1) ∧
      ms.get? 8 = some (untypedSample
        (identity plainBeat.Beat "harvester".toList "harvester".toList "errors".toList)
        (s1.errorCount : Float64)) ∧
      getHarvesterErrors snapshot1 (.success errorLine1) ⟨[], 0⟩ =
        getHarvesterErrors snapshot1 (.success errorLine1) ⟨[], 0⟩ ∧
      (NewFilebeatCollector plainBeat snapshot1).Collect (.success errorLine1) ⟨[], 0⟩ =
        some (ms2, s1) ∧
      ms2.get? 8 = ms.get? 8) ∧
    ((NewFilebeatCollector plainBeat snapshot1).Collect (.success errorLine1) ⟨[], 0⟩).map
      (fun r => (r.1.map (fun m => m.value), r.2)) =
      some ([3, 10, 7, 1, 2, 1, 0, 2, 1, 0, 1], ⟨"2024-01-01T00:00:01".toList, 1⟩) :=
  ⟨by decide,
    Collect_probes_scanner_once plainBeat snapshot1 snapshot1 (.success errorLine1) ⟨[], 0⟩
      (by decide),
    by decide⟩

/-- C13: from the initial state, the first invocation on the output `eA`
returns, and if it has counted a line, then a second invocation on a boundary
line `d` followed by the output `eB` ends in the state, and returns the count,
of one invocation from the initial state on `eA` followed by `eB`, which scans
the lines of the first invocation followed by the lines of the second. -/
theorem split_polls_agree (stats : Stats) (eA eB d : Str) (hd : '\n' ∉ d) :
    ∃ s1, getHarvesterErrors stats (.success eA) ScannerState.init =
        some ((s1.errorCount : Float64), s1) ∧
      (0 < s1.errorCount →
        ∃ s2, getHarvesterErrors stats (.success (d ++ '\n' :: eB)) s1 =
            some ((s2.errorCount : Float64), s2) ∧
          getHarvesterErrors stats (.success (eA ++ '\n' :: eB)) ScannerState.init =
            some ((s2.errorCount : Float64), s2) ∧
          linesScanned [] (eA ++ '\n' :: eB) =
            linesScanned [] eA ++ linesScanned s1.lastError (d ++ '\n' :: eB)) := by
  obtain ⟨s1, h1, hinv, _⟩ := poll_watermark stats (.success eA) ScannerState.init
  refine ⟨s1, h1, fun hpos => ?_⟩
  have hw : s1.lastError ≠ [] := by
    intro h
    have := (hinv (by simp [ScannerState.init])).mpr h
    omega
  have hs1 : s1 = (Split eA '\n').foldl (scanStep harvesterRegexp) ScannerState.init := by
    have h2 := getHarvesterErrors_success stats eA ScannerState.init
    rw [h1] at h2
    simpa [linesScanned, ScannerState.init] using congrArg (Option.map Prod.snd) h2
  have hB : linesScanned s1.lastError (d ++ '\n' :: eB) = Split eB '\n' := by
    simp [linesScanned, hw, Split_append '\n' d eB hd]
  have hAB : linesScanned [] (eA ++ '\n' :: eB) = Split eA '\n' ++ Split eB '\n' := by
    simp [linesScanned, Split_append_sep]
  refine ⟨_, getHarvesterErrors_success stats _ s1, ?_, ?_⟩
  · rw [getHarvesterErrors_success, hB]
    have : linesScanned ScannerState.init.lastError (eA ++ '\n' :: eB) =
        Split eA '\n' ++ Split eB '\n' := hAB
    rw [this, List.foldl_append, ← hs1]
  · rw [hAB, hB]
    simp [linesScanned]

/-- Witness for C13: an error line and an info line in a first poll, then the
error line again as boundary and a new error line in a second poll, give the
count 2 and the watermark `2024-01-01T00:00:05`, as one poll on the three
lines does. -/
theorem split_polls_agree_witness :
    '\n' ∉ errorLine1 ∧
    (∃ s1, getHarvesterErrors snapshot1 (.success (errorLine1 ++ '\n' :: infoLine))
          ScannerState.init = some ((s1.errorCount : Float64), s1) ∧
      (0 < s1.errorCount →
        ∃ s2, getHarvesterErrors snapshot1 (.success (errorLine1 ++ '\n' :: errorLine5)) s1 =
            some ((s2.errorCount : Float64), s2) ∧
          getHarvesterErrors snapshot1
            (.success ((errorLine1 ++ '\n' :: infoLine) ++ '\n' :: errorLine5))
            ScannerState.init = some ((s2.errorCount : Float64), s2) ∧
          linesScanned [] ((errorLine1 ++ '\n' :: infoLine) ++ '\n' :: errorLine5) =
            linesScanned [] (errorLine1 ++ '\n' :: infoLine) ++
              linesScanned s1.lastError (errorLine1 ++ '\n' :: errorLine5))) ∧
    getHarvesterErrors snapshot1 (.success (errorLine1 ++ '\n' :: infoLine)) ScannerState.init =
      some (1, ⟨"2024-01-01T00:00:01".toList, 1⟩) ∧
    getHarvesterErrors snapshot1 (.success (errorLine1 ++ '\n' :: errorLine5))
      ⟨"2024-01-01T00:00:01".toList, 1⟩ = some (2, ⟨"2024-01-01T00:00:05".toList, 2⟩) ∧
    getHarvesterErrors snapshot1
      (.success ((errorLine1 ++ '\n' :: infoLine) ++ '\n' :: errorLine5)) ScannerState.init =
      some (2, ⟨"2024-01-01T00:00:05".toList, 2⟩) :=
  ⟨by decide, split_polls_agree snapshot1 (errorLine1 ++ '\n' :: infoLine) errorLine5 errorLine1
    (by decide), by decide, by decide, by decide⟩

/-- C14: along any sequence of invocations from the initial state, with
arbitrary retrieval outcomes, every invocation returns, in every state the
count is zero exactly when the watermark is empty, and a state with a
non-empty watermark is followed only by states with a non-empty watermark. -/
theorem count_zero_iff_watermark_empty (stats : Stats) (runs : List Retrieval) :
    ∃ tr, pollTrace stats ScannerState.init runs = some tr ∧
      tr.length = runs.length + 1 ∧
      (∀ s ∈ tr, (s.errorCount = 0 ↔ s.lastError = [])) ∧
      List.Pairwise (fun a b : ScannerState => a.lastError ≠ [] → b.lastError ≠ []) tr := by
  obtain ⟨tr, h, hlen, hinv, _, hpw⟩ := pollTrace_watermark stats runs ScannerState.init
  have h0 : ScannerState.init.errorCount = 0 ↔ ScannerState.init.lastError = [] := by
    simp [ScannerState.init]
  refine ⟨_, h, by simp [hlen], ?_, hpw⟩
  intro s hs
  rcases List.mem_cons.mp hs with hs | hs
  · rw [hs]; exact h0
  · exact hinv h0 s hs

/-- Witness for C14: over `threePolls` the states are the initial one, twice
the count 1 with the watermark `2024-01-01T00:00:01`, and the count 2 with the
watermark `2024-01-01T00:00:05`. -/
theorem count_zero_iff_watermark_empty_witness :
    (∃ tr, pollTrace snapshot1 ScannerState.init threePolls = some tr ∧
      tr.length = threePolls.length + 1 ∧
      (∀ s ∈ tr, (s.errorCount = 0 ↔ s.lastError = [])) ∧
      List.Pairwise (fun a b : ScannerState => a.lastError ≠ [] → b.lastError ≠ []) tr) ∧
    pollTrace snapshot1 ScannerState.init threePolls =
      some [⟨[], 0⟩, ⟨"2024-01-01T00:00:01".toList, 1⟩, ⟨"2024-01-01T00:00:01".toList, 1⟩,
        ⟨"2024-01-01T00:00:05".toList, 2⟩] :=
  ⟨count_zero_iff_watermark_empty snapshot1 threePolls, by decide⟩

/-- C15: for every standard error text, the empty one included, and every
watermark, the scan does not panic: splitting the text on newline gives at
least one line, so `errStr[1:]` is defined; splitting a line on tab gives at
least one piece, so the index `[0]` in `isHarvesterError` is defined; the loop
and `getHarvesterErrors` return. -/
theorem scan_never_indexes_out_of_range (stats : Stats) (r : Regexp) (e w l : Str)
    (s : ScannerState) :
    (1 ≤ (Split e '\n').length ∧ ∃ rest, sliceFrom1 (Split e '\n') = some rest) ∧
    (∃ ls, scannedLines w e = some ls) ∧
    (1 ≤ (Split l '\t').length ∧ ∃ tok, index0 (Split l '\t') = some tok) ∧
    (∃ tok, isHarvesterError r l = some tok) ∧
    (∀ vs : List Str, ∃ s1, scanLines r s vs = some s1) ∧
    (∃ v s1, getHarvesterErrors stats (.success e) s = some (v, s1)) ∧
    (Split [] '\n' = [[]] ∧ sliceFrom1 (Split [] '\n') = some [] ∧
      ∃ v s1, getHarvesterErrors stats (.success []) s = some (v, s1)) := by
  refine ⟨⟨by simp [Split], ⟨_, rfl⟩⟩, ⟨_, scannedLines_eq w e⟩, ⟨by simp [Split], ⟨_, rfl⟩⟩,
    ⟨_, isHarvesterError_eq r l⟩, fun vs => ⟨_, scanLines_eq r s vs⟩,
    ⟨_, _, getHarvesterErrors_success stats e s⟩, rfl, rfl,
    ⟨_, _, getHarvesterErrors_success stats [] s⟩⟩

theorem splitParts_not_mem (sep : Char) (s : Str) :
    sep ∉ (splitParts sep s).1 ∧ ∀ l ∈ (splitParts sep s).2, sep ∉ l := by
  induction s with
  | nil => simp [splitParts]
  | cons c cs ih =>
    by_cases h : c = sep
    · simp only [splitParts, h, if_true]
      refine ⟨by simp, ?_⟩
      intro l hl
      rcases List.mem_cons.mp hl with hl | hl
      · rw [hl]; exact ih.1
      · exact ih.2 l hl
    · simp only [splitParts, h, if_false]
      refine ⟨?_, ih.2⟩
      intro hm
      rcases List.mem_cons.mp hm with hm | hm
      · exact h hm.symm
      · exact ih.1 hm

theorem not_mem_of_mem_Split (sep : Char) (s l : Str) (hl : l ∈ Split s sep) : sep ∉ l := by
  rcases List.mem_cons.mp hl with hl | hl
  · rw [hl]; exact (splitParts_not_mem sep s).1
  · exact (splitParts_not_mem sep s).2 l hl

theorem mem_Split_of_mem_linesScanned (w e l : Str) (hl : l ∈ linesScanned w e) :
    l ∈ Split e '\n' := by
  unfold linesScanned at hl
  split_ifs at hl
  · exact hl
  · exact List.mem_of_mem_tail hl

theorem tab_not_mem_leadingToken (v : Str) : '\t' ∉ leadingToken v := by
  intro h
  have := List.mem_takeWhile_imp h
  simp at this

theorem leadingToken_isPrefix (v : Str) : leadingToken v <+: v :=
  List.takeWhile_prefix _

theorem scanStep_watermark (r : Regexp) (H : List Str) (s : ScannerState) (v : Str)
    (hv : v ∈ H) (hn : '\n' ∉ v)
    (hs : '\t' ∉ s.lastError ∧ '\n' ∉ s.lastError ∧
      (s.lastError ≠ [] → ∃ l ∈ H, s.lastError <+: l)) :
    '\t' ∉ (scanStep r s v).lastError ∧ '\n' ∉ (scanStep r s v).lastError ∧
      ((scanStep r s v).lastError ≠ [] → ∃ l ∈ H, (scanStep r s v).lastError <+: l) := by
  unfold scanStep
  split_ifs with hc
  · refine ⟨tab_not_mem_leadingToken v, ?_, fun _ => ⟨v, hv, leadingToken_isPrefix v⟩⟩
    intro h
    exact hn ((leadingToken_isPrefix v).subset h)
  · exact hs

theorem poll_watermark_lines (stats : Stats) (run : Retrieval) (H : List Str) (s : ScannerState)
    (hs : '\t' ∉ s.lastError ∧ '\n' ∉ s.lastError ∧
      (s.lastError ≠ [] → ∃ l ∈ H, s.lastError <+: l)) :
    ∃ s1, getHarvesterErrors stats run s = some ((s1.errorCount : Float64), s1) ∧
      '\t' ∉ s1.lastError ∧ '\n' ∉ s1.lastError ∧
      (s1.lastError ≠ [] → ∃ l ∈ H ++ retrievedLines [run], s1.lastError <+: l) := by
  cases run with
  | failure =>
    refine ⟨s, rfl, hs.1, hs.2.1, fun h => ?_⟩
    obtain ⟨l, hl, hp⟩ := hs.2.2 h
    exact ⟨l, List.mem_append_left _ hl, hp⟩
  | success e =>
    refine ⟨_, getHarvesterErrors_success stats e s, ?_⟩
    have hs2 : '\t' ∉ s.lastError ∧ '\n' ∉ s.lastError ∧
        (s.lastError ≠ [] → ∃ l ∈ H ++ retrievedLines [Retrieval.success e],
          s.lastError <+: l) := by
      refine ⟨hs.1, hs.2.1, fun h => ?_⟩
      obtain ⟨l, hl, hp⟩ := hs.2.2 h
      exact ⟨l, List.mem_append_left _ hl, hp⟩
    refine foldl_scanStep_induction _
      (fun x => '\t' ∉ x.lastError ∧ '\n' ∉ x.lastError ∧
        (x.lastError ≠ [] → ∃ l ∈ H ++ retrievedLines [Retrieval.success e],
          x.lastError <+: l)) _ s hs2 ?_
    intro s2 v hv h2
    have hv2 := mem_Split_of_mem_linesScanned _ _ _ hv
    exact scanStep_watermark _ _ s2 v
      (List.mem_append_right _ (by simpa [retrievedLines] using hv2))
      (not_mem_of_mem_Split '\n' e v hv2) h2

theorem retrievedLines_cons (run : Retrieval) (runs : List Retrieval) :
    retrievedLines (run :: runs) = retrievedLines [run] ++ retrievedLines runs := by
  cases run <;> simp [retrievedLines]

theorem pollTrace_last_watermark (stats : Stats) (runs : List Retrieval) (H : List Str)
    (s : ScannerState)
    (hs : '\t' ∉ s.lastError ∧ '\n' ∉ s.lastError ∧
      (s.lastError ≠ [] → ∃ l ∈ H, s.lastError <+: l)) :
    ∃ tr x, pollTrace stats s runs = some tr ∧ tr.getLast? = some x ∧
      '\t' ∉ x.lastError ∧ '\n' ∉ x.lastError ∧
      (x.lastError ≠ [] → ∃ l ∈ H ++ retrievedLines runs, x.lastError <+: l) := by
  induction runs generalizing s H with
  | nil =>
    refine ⟨[s], s, rfl, rfl, hs.1, hs.2.1, fun h => ?_⟩
    obtain ⟨l, hl, hp⟩ := hs.2.2 h
    exact ⟨l, List.mem_append_left _ hl, hp⟩
  | cons run runs ih =>
    obtain ⟨s1, h1, ht, hn, hp⟩ := poll_watermark_lines stats run H s hs
    obtain ⟨tr, x, h2, hlast, hxt, hxn, hxp⟩ := ih (H ++ retrievedLines [run]) s1 ⟨ht, hn, hp⟩
    refine ⟨s :: tr, x, by simp [pollTrace, h1, h2], ?_, hxt, hxn, ?_⟩
    · cases tr with
      | nil => simp at hlast
      | cons y ys => simpa using hlast
    · intro h
      obtain ⟨l, hl, hpre⟩ := hxp h
      exact ⟨l, by rw [retrievedLines_cons, ← List.append_assoc]; exact hl, hpre⟩

/-- C16: the state reached from the initial state by any sequence of
invocations has a watermark without tab and without newline, so that no
argument of the next `docker` command, whose `--since` boundary is the
watermark, contains one; and a non-empty watermark is a prefix of a line
retrieved by one of the invocations made. -/
theorem watermark_is_token_of_retrieved_line (stats : Stats) (runs : List Retrieval) :
    ∃ tr s, pollTrace stats ScannerState.init runs = some tr ∧ tr.getLast? = some s ∧
      '\t' ∉ s.lastError ∧ '\n' ∉ s.lastError ∧
      (∀ a ∈ dockerArgs s.lastError, '\t' ∉ a ∧ '\n' ∉ a) ∧
      (s.lastError ≠ [] → ∃ l ∈ retrievedLines runs, s.lastError <+: l) := by
  obtain ⟨tr, s, h, hlast, ht, hn, hp⟩ :=
    pollTrace_last_watermark stats runs [] ScannerState.init (by simp [ScannerState.init])
  refine ⟨tr, s, h, hlast, ht, hn, ?_, fun hne => by simpa using hp hne⟩
  intro a ha
  simp only [dockerArgs, List.mem_cons, List.mem_singleton, List.not_mem_nil, or_false] at ha
  rcases ha with ha | ha | ha | ha | ha | ha
  all_goals first
    | (rw [ha]; exact ⟨ht, hn⟩)
    | (rw [ha]; decide)

/-- Witness for C16: after `threePolls` the watermark is `2024-01-01T00:00:05`,
the leading token of the retrieved line `errorLine5`. -/
theorem watermark_is_token_of_retrieved_line_witness :
    (∃ tr s, pollTrace snapshot1 ScannerState.init threePolls = some tr ∧
      tr.getLast? = some s ∧ '\t' ∉ s.lastError ∧ '\n' ∉ s.lastError ∧
      (∀ a ∈ dockerArgs s.lastError, '\t' ∉ a ∧ '\n' ∉ a) ∧
      (s.lastError ≠ [] → ∃ l ∈ retrievedLines threePolls, s.lastError <+: l)) ∧
    (pollTrace snapshot1 ScannerState.init threePolls).map List.getLast? =
      some (some ⟨"2024-01-01T00:00:05".toList, 2⟩) ∧
    errorLine5 ∈ retrievedLines threePolls ∧
    leadingToken errorLine5 = "2024-01-01T00:00:05".toList :=
  ⟨watermark_is_token_of_retrieved_line snapshot1 threePolls, by decide, by decide, by decide⟩

end Collector
